import Mathlib

/-!
# docker-status: address lookup and status server

A shallow embedding of `internal/github.com/JeremyOT/address/lookup/lookup.go`
and `statusserver/statusserver.go`.

Go values are embedded as follows.

* A Go `string` is a Lean `String`; the byte slices taken by the source cut
  only after ASCII prefixes, so they agree with dropping characters.
* A Go result pair `(value, err)` is a Lean pair whose second component is an
  `Option String`: `none` is the nil error, `some msg` an error with message
  `msg`.
* A function that can hit a run-time panic returns `Run`.
* Calls that leave the program (the dial, the interface table of the
  operating system, the docker listing, the registry listing, the GET sent to
  a peer) are arguments carrying what the call answers.
-/

namespace DockerStatus

/-- Outcome of running a Go function: it returns, or a run-time panic unwinds it. -/
inductive Run (α : Type) where
  | done (a : α)
  | panicked (msg : String)
  deriving DecidableEq, Repr

/-! ## Package `lookup` -/

namespace lookup

/-- Go `strings.HasPrefix`. -/
def HasPrefix (s pre : String) : Bool := pre.data.isPrefixOf s.data

/-- Go slice expression `s[n:]`. -/
def sliceFrom (s : String) (n : Nat) : String := ⟨s.data.drop n⟩

/-- Go `strings.ContainsRune`. -/
def ContainsRune (s : String) (r : Char) : Bool := s.data.contains r

/-- Pieces of `cs` between occurrences of the separator `sep`; `cur` holds the
piece being read, reversed. -/
def splitAux (sep : Char) : List Char → List Char → List String
  | [], cur => [⟨cur.reverse⟩]
  | c :: cs, cur =>
    if c = sep then ⟨cur.reverse⟩ :: splitAux sep cs []
    else splitAux sep cs (c :: cur)

/-- Go `strings.Split` for a separator of one character. -/
def Split (s : String) (sep : Char) : List String := splitAux sep s.data []

/-- Go `net.JoinHostPort`: a host holding a colon or a percent sign is put in
brackets. -/
def JoinHostPort (host port : String) : String :=
  if host.data.contains ':' || host.data.contains '%' then "[" ++ host ++ "]:" ++ port
  else host ++ ":" ++ port

/-- Local endpoint of a connection (`net.UDPAddr` without zone): the IP in its
textual form and the port. -/
structure UDPAddr where
  IP : String
  Port : Nat
  deriving DecidableEq, Repr

/-- Go `(*net.UDPAddr).String`. -/
def UDPAddr.String (a : UDPAddr) : String := JoinHostPort a.IP (toString a.Port)

/-- First two statements of `LocalAddress`: the scheme is cut off the test URL. -/
def stripScheme (testUrl : String) : String :=
  if HasPrefix testUrl "http://" then sliceFrom testUrl 7
  else if HasPrefix testUrl "https://" then sliceFrom testUrl 8
  else testUrl

/-- Address `LocalAddress` hands to `net.Dial`: the scheme is cut off, and
`:80` is appended when no colon is left. -/
def dialTarget (testUrl : String) : String :=
  let testUrl := stripScheme testUrl
  if !ContainsRune testUrl ':' then testUrl ++ ":80" else testUrl

/-- Go `LocalAddress`; `dial` answers `net.Dial("udp", target)` with an error or
with the local endpoint of the connection. -/
def LocalAddress (dial : String → Except String UDPAddr) (testUrl : String) :
    String × Option String :=
  match dial (dialTarget testUrl) with
  | .error err => ("", some err)
  | .ok conn => ((Split conn.String ':').headD "", none)

/-- Value of `net.IP`: its textual form and whether `To4` is non-nil. -/
structure IP where
  text : String
  is4 : Bool
  deriving DecidableEq, Repr

/-- Go `net.IP.String` on a possibly nil IP. -/
def IP.String : Option IP → String
  | none => "<nil>"
  | some ip => ip.text

/-- One `net.Addr` of an interface: `cidr` is what `net.ParseCIDR` makes of its
string, `none` when it does not parse. -/
structure Addr where
  cidr : Option IP
  deriving DecidableEq, Repr

/-- One `net.Interface` with the answer of its `Addrs` call. -/
structure Interface where
  Name : String
  Flags : Nat
  Addrs : Except String (List Addr)

/-- Go `net.FlagUp`. -/
def FlagUp : Nat := 1
/-- Go `net.FlagBroadcast`. -/
def FlagBroadcast : Nat := 2

/-- Answer of `net.Interfaces`: the interface table, or an error. -/
abbrev Interfaces := Except String (List Interface)

/-- Go `net.InterfaceByName` over the interface table. -/
def InterfaceByName (table : Interfaces) (name : String) : Option Interface × Option String :=
  if name = "" then (none, some "invalid network interface name")
  else
    match table with
    | .error err => (none, some err)
    | .ok ift =>
      match ift.find? (fun ifi => name = ifi.Name) with
      | some ifi => (some ifi, none)
      | none => (none, some "no such network interface")

/-- Go `InterfaceIPs`: all IP addresses found for the named interface. -/
def InterfaceIPs (table : Interfaces) (interfaceName : String) : List IP × Option String :=
  match InterfaceByName table interfaceName with
  | (some iface, none) =>
    match iface.Addrs with
    | .error err => ([], some err)
    | .ok addrs =>
      (addrs.foldl (fun ips addr =>
          match addr.cidr with
          | some ip => ips ++ [ip]
          | none => ips) [], none)
  | (_, some err) => ([], some err)
  | (none, none) => ([], none)

/-- Go `InterfaceIP`: indexes `ips[0]` without a length check. -/
def InterfaceIP (table : Interfaces) (interfaceName : String) :
    Run (Option IP × Option String) :=
  match InterfaceIPs table interfaceName with
  | (_, some err) => .done (none, some err)
  | (ips, none) =>
    match ips with
    | ip :: _ => .done (some ip, none)
    | [] => .panicked "runtime error: index out of range"

/-- Go `InterfaceIPv4`: the first IP whose `To4` is non-nil; the final bare
`return` hands back the zero values of both results. -/
def InterfaceIPv4 (table : Interfaces) (interfaceName : String) : Option IP × Option String :=
  match InterfaceIPs table interfaceName with
  | (_, some err) => (none, some err)
  | (ips, none) =>
    match ips.find? (fun ip => ip.is4) with
    | some ip => (some ip, none)
    | none => (none, none)

/-- Go `FilterInterfaces`: both loops of the source, as folds. -/
def FilterInterfaces (table : Interfaces) (f : List Nat) : List Interface × Option String :=
  match table with
  | .error err => ([], some err)
  | .ok allInterfaces =>
    (allInterfaces.foldl (fun interfaces iface =>
        let incl := f.foldl (fun incl flag =>
          if iface.Flags &&& flag = 0 then false else incl) true
        if incl then interfaces ++ [iface] else interfaces) [], none)

/-- Go `GetInterfaceAddress`. -/
def GetInterfaceAddress (table : Interfaces) (name : String) (filterIPv4 : Bool) :
    Run (String × Option String) :=
  if filterIPv4 then
    match InterfaceIPv4 table name with
    | (_, some err) => .done ("", some err)
    | (ip, none) => .done (IP.String ip, none)
  else
    match InterfaceIP table name with
    | .panicked msg => .panicked msg
    | .done (_, some err) => .done ("", some err)
    | .done (ip, none) => .done (IP.String ip, none)

/-- Go `GetAddress`: indexes `interfaces[0]` without a length check. -/
def GetAddress (table : Interfaces) (filterIPv4 : Bool) : Run (String × Option String) :=
  match FilterInterfaces table [FlagUp, FlagBroadcast] with
  | (_, some err) => .done ("", some err)
  | (interfaces, none) =>
    match interfaces with
    | iface :: _ => GetInterfaceAddress table iface.Name filterIPv4
    | [] => .panicked "runtime error: index out of range"

/-- Whether a target carries a port, in the words of the specification: the
host part of the target, which ends at the first slash, is followed by a colon
and the port; after an IPv6 literal in brackets the colon follows the closing
bracket. -/
def specCarriesPort (target : String) : Bool :=
  let hostport := target.data.takeWhile (fun c => c ≠ '/')
  match hostport with
  | '[' :: rest => ((rest.dropWhile (fun c => c ≠ ']')).drop 1).head? = some ':'
  | _ => hostport.contains ':'

end lookup

/-! ## Package `statusserver` -/

namespace statusserver

/-- Modelled from the spec: `docker.APIPort` is declared in the vendored docker
client, which is not among the sources; one exposed port of a container. -/
structure APIPort where
  PrivatePort : Int
  PublicPort : Int
  deriving DecidableEq, Repr

/-- Modelled from the spec: `docker.APIContainers` is declared in the vendored
docker client, which is not among the sources; a struct value describing one
running container, relayed as it is, with its exposed ports in `Ports`. -/
structure APIContainers where
  ID : String
  Image : String
  Names : List String
  Ports : List APIPort
  deriving DecidableEq, Repr

/-- Go `ContainerResponse`. -/
structure ContainerResponse where
  Error : String
  Containers : List APIContainers
  Host : String
  Port : Int
  deriving DecidableEq, Repr

/-- Go `map[string]V`: its entries, each key present once. -/
structure GoMap (V : Type) where
  entries : List (String × V)
  deriving DecidableEq, Repr

/-- Value stored under key `k`: Go `m[k]` with its presence flag. -/
def entriesGet {V : Type} : List (String × V) → String → Option V
  | [], _ => none
  | (k', v) :: es, k => if k' = k then some v else entriesGet es k

/-- Entries after `m[k] = v`: the value of a present key is replaced, a new key
is added. -/
def entriesSet {V : Type} : List (String × V) → String → V → List (String × V)
  | [], k, v => [(k, v)]
  | (k', v') :: es, k, v =>
    if k' = k then (k, v) :: es else (k', v') :: entriesSet es k v

/-- Go `m[k]` with its presence flag. -/
def GoMap.get {V : Type} (m : GoMap V) (k : String) : Option V := entriesGet m.entries k

/-- Go `m[k] = v`. -/
def GoMap.set {V : Type} (m : GoMap V) (k : String) (v : V) : GoMap V :=
  ⟨entriesSet m.entries k v⟩

/-- Keys of the map. -/
def GoMap.keys {V : Type} (m : GoMap V) : List String := m.entries.map Prod.fst

/-- Go `len(m)`. -/
def GoMap.len {V : Type} (m : GoMap V) : Nat := m.entries.length

/-- Go `ClusterContainerResponse`. -/
structure ClusterContainerResponse where
  Hosts : GoMap ContainerResponse
  deriving DecidableEq, Repr

/-- A value handed to `json.NewEncoder(writer).Encode`. -/
inductive Document where
  | error (Error : String)
  | container (r : ContainerResponse)
  | cluster (r : ClusterContainerResponse)
  deriving DecidableEq, Repr

/-- What a handler does that can be seen from outside, in the order it happens:
a call `http.Get(url)` is entered, a call `http.Get(url)` has returned (with a
response or with an error), a document is encoded to the writer. -/
inductive Event where
  | getIssued (url : String)
  | getReturned (url : String)
  | encoded
  deriving DecidableEq, Repr

/-- The `http.ResponseWriter` of one request together with the events of the
request so far. -/
structure Exchange where
  header : List (String × String)
  status : Option Nat
  body : List Document
  trace : List Event
  deriving DecidableEq, Repr

/-- The exchange at the start of a request. -/
def Exchange.fresh : Exchange := ⟨[], none, [], []⟩

/-- Go `writer.Header().Add`. -/
def Exchange.AddHeader (x : Exchange) (key value : String) : Exchange :=
  { x with header := x.header ++ [(key, value)] }

/-- Go `writer.WriteHeader`: the first status written stands. -/
def Exchange.WriteHeader (x : Exchange) (status : Nat) : Exchange :=
  match x.status with
  | some _ => x
  | none => { x with status := some status }

/-- Go `json.NewEncoder(writer).Encode(v)`: writing the body sends status 200
when no status was written before. -/
def Exchange.Encode (x : Exchange) (v : Document) : Exchange :=
  let x := x.WriteHeader 200
  { x with body := x.body ++ [v], trace := x.trace ++ [Event.encoded] }

/-- Go `writeError`. -/
def writeError (writer : Exchange) (status : Nat) (err : String) : Exchange :=
  let status := if status = 0 then 500 else status
  let writer := writer.WriteHeader status
  writer.Encode (Document.error err)

/-- State of `for _, c := range containers`: the slice that is ranged over and
the loop variable `c`. -/
structure RangeState where
  containers : List APIContainers
  c : Option APIContainers
  deriving DecidableEq, Repr

/-- One pass of the loop body `c.Ports = nil`: `c` holds a copy of the element,
and the assignment changes that copy. -/
def rangeBody (st : RangeState) (elem : APIContainers) : RangeState :=
  let c := elem
  let c := { c with Ports := [] }
  { st with c := some c }

/-- Go `handleLocalStatusRequest`; `listContainers` is the answer of
`s.dockerClient.ListContainers`. -/
def handleLocalStatusRequest (listContainers : Except String (List APIContainers))
    (writer : Exchange) : Exchange :=
  let writer := writer.AddHeader "Content-Type" "application/json"
  match listContainers with
  | .error err => writeError writer 500 err
  | .ok containers =>
    let st := containers.foldl rangeBody ⟨containers, none⟩
    writer.Encode (Document.container
      { Error := "", Containers := st.containers, Host := "", Port := 0 })

/-- Modelled from the spec: `etcd.Service` is declared in the vendored registry
client, which is not among the sources; a peer record with host and port. -/
structure Service where
  Host : String
  Port : Int
  deriving DecidableEq, Repr

/-- Modelled from the spec: `(*etcd.Service).Address` is defined in the vendored
registry client, which is not among the sources; the derived address string
`host:port`. -/
def hostPort (s : Service) : String := s.Host ++ ":" ++ toString s.Port

/-- What `json.NewDecoder(resp.Body).Decode(&response)` makes of the body a
peer sent: each field carries the value the document supplies for it, `none`
when it supplies none or one of the wrong type, and `err` is the error `Decode`
returns. -/
structure PeerBody where
  Error : Option String
  Containers : Option (List APIContainers)
  Host : Option String
  Port : Option Int
  err : Option String
  deriving DecidableEq, Repr

/-- Answer of `http.Get` for one peer: an error, or a response with a body. -/
inductive GetResult where
  | failed (err : String)
  | responded (body : PeerBody)
  deriving DecidableEq, Repr

/-- One entry of the list `etcd.ListServices` returns, together with the answer
the GET sent for this entry receives. -/
structure Peer where
  service : Service
  get : GetResult
  deriving DecidableEq, Repr

/-- Go `Decode(&response)`: the fields the document supplies are stored into
`response`, the other fields keep their values. -/
def Decode (body : PeerBody) (response : ContainerResponse) :
    ContainerResponse × Option String :=
  ({ Error := body.Error.getD response.Error
     Containers := body.Containers.getD response.Containers
     Host := body.Host.getD response.Host
     Port := body.Port.getD response.Port }, body.err)

/-- State of the loop over the services: the map `containers` and the events. -/
structure LoopState where
  containers : GoMap ContainerResponse
  trace : List Event
  deriving DecidableEq, Repr

/-- URL of the GET sent to the peer with address `addr`. -/
def localStatusURL (addr : String) : String := "http://" ++ addr ++ "/status/local"

/-- Body of the loop `for _, service := range services` in
`handleClusterStatusRequest`; `Address` is the method `service.Address`. The
call `http.Get` returns before the next statement runs. -/
def serviceBody (Address : Service → String) (st : LoopState) (peer : Peer) : LoopState :=
  let service := peer.service
  let addr := Address service
  let response : ContainerResponse :=
    { Error := "", Containers := [], Host := service.Host, Port := service.Port }
  let trace := st.trace ++
    [Event.getIssued (localStatusURL addr), Event.getReturned (localStatusURL addr)]
  match peer.get with
  | .failed err =>
    let response := { response with Error := err }
    { containers := st.containers.set addr response, trace := trace }
  | .responded body =>
    match Decode body response with
    | (response, some err) =>
      let response := { response with Error := err }
      { containers := st.containers.set addr response, trace := trace }
    | (response, none) =>
      { containers := st.containers.set addr response, trace := trace }

/-- Go `handleClusterStatusRequest`; `listServices` is the answer of
`etcd.ListServices`. -/
def handleClusterStatusRequest (Address : Service → String)
    (listServices : Except String (List Peer)) (writer : Exchange) : Exchange :=
  let writer := writer.AddHeader "Content-Type" "application/json"
  match listServices with
  | .error err => writeError writer 500 err
  | .ok services =>
    let st := services.foldl (serviceBody Address) ⟨⟨[]⟩, writer.trace⟩
    let writer := { writer with trace := st.trace }
    writer.Encode (Document.cluster { Hosts := st.containers })

/-- The hosts mapping in the body of a response, when the body is one cluster
document. -/
def hostsOf (x : Exchange) : Option (GoMap ContainerResponse) :=
  match x.body with
  | [Document.cluster r] => some r.Hosts
  | _ => none

/-- The value the body of the loop over the services stores for one peer. -/
def peerEntry (peer : Peer) : ContainerResponse :=
  match peer.get with
  | .failed err => ⟨err, [], peer.service.Host, peer.service.Port⟩
  | .responded body =>
    match body.err with
    | some err =>
      ⟨err, body.Containers.getD [], body.Host.getD peer.service.Host,
        body.Port.getD peer.service.Port⟩
    | none =>
      ⟨body.Error.getD "", body.Containers.getD [], body.Host.getD peer.service.Host,
        body.Port.getD peer.service.Port⟩

/-- The two events of the GET sent to one peer. -/
def peerEvents (Address : Service → String) (peer : Peer) : List Event :=
  [Event.getIssued (localStatusURL (Address peer.service)),
   Event.getReturned (localStatusURL (Address peer.service))]

end statusserver


namespace lookup

theorem data_http (t : String) :
    ("http://" ++ t).data = 'h' :: 't' :: 't' :: 'p' :: ':' :: '/' :: '/' :: t.data := by
  rw [String.data_append]
  rfl

theorem data_https (t : String) :
    ("https://" ++ t).data = 'h' :: 't' :: 't' :: 'p' :: 's' :: ':' :: '/' :: '/' :: t.data := by
  rw [String.data_append]
  rfl

theorem stripScheme_http (t : String) : stripScheme ("http://" ++ t) = t := by
  have h : HasPrefix ("http://" ++ t) "http://" = true := by
    simp [HasPrefix, data_http, List.isPrefixOf]
  simp [stripScheme, h, sliceFrom, data_http]

theorem stripScheme_https (t : String) : stripScheme ("https://" ++ t) = t := by
  have h : HasPrefix ("https://" ++ t) "http://" = false := by
    simp [HasPrefix, data_https, List.isPrefixOf]
  have h' : HasPrefix ("https://" ++ t) "https://" = true := by
    simp [HasPrefix, data_https, List.isPrefixOf]
  simp [stripScheme, h, h', sliceFrom, data_https]

theorem stripScheme_none (t : String) (h : HasPrefix t "http://" = false)
    (h' : HasPrefix t "https://" = false) : stripScheme t = t := by
  simp [stripScheme, h, h']

theorem dialTarget_eq (t : String) :
    dialTarget t =
      if ':' ∈ (stripScheme t).data then stripScheme t else stripScheme t ++ ":80" := by
  simp only [dialTarget, ContainsRune]
  by_cases h : ':' ∈ (stripScheme t).data <;> simp [h]

/-- C7, as stated, fails: `[::1]` is an IPv6 literal host that carries no port,
and for the target `http://[::1]` the address dialed is `[::1]`, without the
default port. -/
theorem dialTarget_ipv6_counterexample :
    specCarriesPort "[::1]" = false ∧ dialTarget "http://[::1]" = "[::1]" ∧
    dialTarget "http://[::1]" ≠ "[::1]:80" := by
  decide

/-- C7, amended: the address dialed is the target with a leading `http://` or
`https://` removed, and with `:80` appended exactly when what remains holds no
colon; a remainder that holds a colon is dialed as it is. -/
theorem dialTarget_spec (target : String) :
    dialTarget ("http://" ++ target) =
      (if ':' ∈ target.data then target else target ++ ":80") ∧
    dialTarget ("https://" ++ target) =
      (if ':' ∈ target.data then target else target ++ ":80") ∧
    (HasPrefix target "http://" = false → HasPrefix target "https://" = false →
      dialTarget target = if ':' ∈ target.data then target else target ++ ":80") := by
  refine ⟨?_, ?_, ?_⟩
  · rw [dialTarget_eq, stripScheme_http]
  · rw [dialTarget_eq, stripScheme_https]
  · intro h h'
    rw [dialTarget_eq, stripScheme_none target h h']

/-- C7, amended, at a target without scheme and without colon. -/
theorem dialTarget_spec_witness :
    HasPrefix "example.com" "http://" = false ∧ HasPrefix "example.com" "https://" = false ∧
    dialTarget "example.com" = "example.com:80" :=
  ⟨by decide, by decide,
    ((dialTarget_spec "example.com").2.2 (by decide) (by decide)).trans (by decide)⟩

/-- C8, at the failing input: the dial for the target `[::1]:53` succeeds and
the local endpoint of the connection is the IPv6 address `::1` with port 54321,
written `[::1]:54321`; `LocalAddress` returns the host `[`, not `::1`. -/
theorem LocalAddress_ipv6_endpoint :
    UDPAddr.String ⟨"::1", 54321⟩ = "[::1]:54321" ∧
    LocalAddress (fun _ => .ok ⟨"::1", 54321⟩) "[::1]:53" = ("[", none) ∧
    LocalAddress (fun _ => .ok ⟨"::1", 54321⟩) "[::1]:53" ≠ ("::1", none) := by
  decide

/-- C4, at the failing inputs: the interface `eth0` exists. Without the filter
and with no address at all, `GetInterfaceAddress` ends in an index panic; with
the filter and one IPv6 address only, it returns the address `<nil>` and a nil
error. -/
theorem GetInterfaceAddress_empty_addresses :
    GetInterfaceAddress (.ok [⟨"eth0", 3, .ok []⟩]) "eth0" false =
      .panicked "runtime error: index out of range" ∧
    GetInterfaceAddress (.ok [⟨"eth0", 3, .ok [⟨some ⟨"fe80::1", false⟩⟩]⟩]) "eth0" true =
      .done ("<nil>", none) := by
  decide

/-- C5, at the failing inputs: with no interface at all, and with a loopback
interface that is up and has no broadcast flag, `GetAddress` ends in an index
panic for both values of `filterIPv4`, and returns no error. -/
theorem GetAddress_no_matching_interface :
    GetAddress (.ok []) false = .panicked "runtime error: index out of range" ∧
    GetAddress (.ok []) true = .panicked "runtime error: index out of range" ∧
    GetAddress (.ok [⟨"lo", 5, .ok [⟨some ⟨"127.0.0.1", true⟩⟩]⟩]) false =
      .panicked "runtime error: index out of range" ∧
    GetAddress (.ok [⟨"lo", 5, .ok [⟨some ⟨"127.0.0.1", true⟩⟩]⟩]) true =
      .panicked "runtime error: index out of range" := by
  decide

theorem and_two_pow_cases (n k : Nat) : n &&& 2 ^ k = 0 ∨ n &&& 2 ^ k = 2 ^ k := by
  cases h : n.testBit k with
  | false =>
    left
    apply Nat.eq_of_testBit_eq
    intro i
    simp only [Nat.testBit_and, Nat.testBit_two_pow, Nat.zero_testBit]
    by_cases hi : k = i
    · subst hi
      simp [h]
    · simp [hi]
  | true =>
    right
    apply Nat.eq_of_testBit_eq
    intro i
    simp only [Nat.testBit_and, Nat.testBit_two_pow]
    by_cases hi : k = i
    · subst hi
      simp [h]
    · simp [hi]

theorem and_two_pow_ne_zero_iff (n k : Nat) : n &&& 2 ^ k ≠ 0 ↔ n &&& 2 ^ k = 2 ^ k := by
  have hpos : (2 : Nat) ^ k ≠ 0 := by positivity
  rcases and_two_pow_cases n k with h | h
  · rw [h]
    constructor
    · intro h'
      exact absurd rfl h'
    · intro h'
      exact absurd h'.symm hpos
  · rw [h]
    exact ⟨fun _ => rfl, fun _ => hpos⟩

theorem foldl_flags (flags : Nat) (f : List Nat) (b : Bool) :
    f.foldl (fun incl flag => if flags &&& flag = 0 then false else incl) b =
      (b && f.all fun flag => decide (flags &&& flag ≠ 0)) := by
  induction f generalizing b with
  | nil => simp
  | cons flag f ih =>
    rw [List.foldl_cons, ih]
    by_cases h : flags &&& flag = 0
    · simp [h]
    · simp [h]

theorem foldl_append_if {α : Type} (p : α → Bool) (l acc : List α) :
    l.foldl (fun acc a => if p a then acc ++ [a] else acc) acc = acc ++ l.filter p := by
  induction l generalizing acc with
  | nil => simp
  | cons a l ih =>
    rw [List.foldl_cons, ih]
    by_cases h : p a <;> simp [h, List.filter_cons]

theorem FilterInterfaces_ok (allInterfaces : List Interface) (f : List Nat) :
    FilterInterfaces (.ok allInterfaces) f =
      (allInterfaces.filter (fun iface =>
        f.all fun flag => decide (iface.Flags &&& flag ≠ 0)), none) := by
  simp only [FilterInterfaces, foldl_flags, Bool.true_and]
  rw [foldl_append_if (fun iface : Interface =>
    f.all fun flag => decide (iface.Flags &&& flag ≠ 0))]
  simp

/-- C6, as stated, fails: for the one flag argument 3 (up and broadcast in one
mask) an interface whose flags are 1 (up only) is returned, though bit 2 of the
argument is not set in its flags. -/
theorem FilterInterfaces_mask_counterexample :
    (FilterInterfaces (.ok [⟨"eth0", 1, .ok []⟩]) [3]).1.map (fun iface => iface.Name) =
      ["eth0"] ∧
    (1 : Nat) &&& 3 ≠ 3 := by
  decide

/-- C6, amended: `FilterInterfaces` returns, in enumeration order, exactly the
interfaces whose flags share a bit with every requested flag argument; when
every argument is one flag bit these are exactly the interfaces whose flags
hold every requested flag; with no flag argument it returns every interface. -/
theorem FilterInterfaces_spec (allInterfaces : List Interface) (f : List Nat) :
    FilterInterfaces (.ok allInterfaces) f =
      (allInterfaces.filter (fun iface =>
        f.all fun flag => decide (iface.Flags &&& flag ≠ 0)), none) ∧
    ((∀ flag ∈ f, ∃ k, flag = 2 ^ k) →
      FilterInterfaces (.ok allInterfaces) f =
        (allInterfaces.filter (fun iface =>
          f.all fun flag => decide (iface.Flags &&& flag = flag)), none)) ∧
    FilterInterfaces (.ok allInterfaces) [] = (allInterfaces, none) := by
  refine ⟨FilterInterfaces_ok allInterfaces f, ?_, ?_⟩
  · intro hf
    rw [FilterInterfaces_ok]
    congr 1
    apply List.filter_congr
    intro iface _
    rw [Bool.eq_iff_iff]
    simp only [List.all_eq_true, decide_eq_true_eq]
    constructor
    · intro h flag hflag
      obtain ⟨k, rfl⟩ := hf flag hflag
      exact (and_two_pow_ne_zero_iff _ k).mp (h _ hflag)
    · intro h flag hflag
      obtain ⟨k, rfl⟩ := hf flag hflag
      exact (and_two_pow_ne_zero_iff _ k).mpr (h _ hflag)
  · rw [FilterInterfaces_ok]
    simp

/-- C6, amended, at the flags up and broadcast over an interface with both and
a loopback interface without broadcast. -/
theorem FilterInterfaces_spec_witness :
    (∀ flag ∈ [FlagUp, FlagBroadcast], ∃ k, flag = 2 ^ k) ∧
    (FilterInterfaces (.ok [⟨"eth0", 3, .ok []⟩, ⟨"lo", 5, .ok []⟩])
      [FlagUp, FlagBroadcast]).1.map (fun iface => iface.Name) = ["eth0"] := by
  have hf : ∀ flag ∈ [FlagUp, FlagBroadcast], ∃ k, flag = 2 ^ k := by
    intro flag h
    simp only [List.mem_cons, List.mem_singleton, List.not_mem_nil, or_false] at h
    rcases h with rfl | rfl
    · exact ⟨0, rfl⟩
    · exact ⟨1, rfl⟩
  refine ⟨hf, ?_⟩
  rw [(FilterInterfaces_spec [⟨"eth0", 3, .ok []⟩, ⟨"lo", 5, .ok []⟩]
    [FlagUp, FlagBroadcast]).2.1 hf]
  decide

end lookup

namespace statusserver

theorem entriesGet_set_self {V : Type} (es : List (String × V)) (k : String) (v : V) :
    entriesGet (entriesSet es k v) k = some v := by
  induction es with
  | nil => simp [entriesSet, entriesGet]
  | cons e es ih =>
    obtain ⟨k', v'⟩ := e
    by_cases h : k' = k
    · simp [entriesSet, entriesGet, h]
    · simp [entriesSet, entriesGet, h, ih]

theorem entriesGet_set_ne {V : Type} (es : List (String × V)) (k k' : String) (v : V)
    (h : k' ≠ k) : entriesGet (entriesSet es k v) k' = entriesGet es k' := by
  induction es with
  | nil => simp [entriesSet, entriesGet, Ne.symm h]
  | cons e es ih =>
    obtain ⟨k₀, v₀⟩ := e
    by_cases h₀ : k₀ = k
    · subst h₀
      simp [entriesSet, entriesGet, Ne.symm h]
    · by_cases h₁ : k₀ = k'
      · subst h₁
        simp [entriesSet, entriesGet, h₀]
      · simp [entriesSet, entriesGet, h₀, h₁, ih]

theorem entriesGet_eq_none {V : Type} (es : List (String × V)) (k : String) :
    entriesGet es k = none ↔ k ∉ es.map Prod.fst := by
  induction es with
  | nil => simp [entriesGet]
  | cons e es ih =>
    obtain ⟨k₀, v₀⟩ := e
    by_cases h₀ : k₀ = k
    · simp [entriesGet, h₀]
    · simp only [entriesGet, h₀, if_false, ih, List.map_cons, List.mem_cons, not_or]
      constructor
      · intro h
        exact ⟨fun h' => h₀ h'.symm, h⟩
      · intro h
        exact h.2

theorem entriesSet_of_not_mem {V : Type} (es : List (String × V)) (k : String) (v : V)
    (h : k ∉ es.map Prod.fst) : entriesSet es k v = es ++ [(k, v)] := by
  induction es with
  | nil => simp [entriesSet]
  | cons e es ih =>
    obtain ⟨k₀, v₀⟩ := e
    simp only [List.map_cons, List.mem_cons, not_or] at h
    have h₀ : ¬ k₀ = k := fun h' => h.1 h'.symm
    simp [entriesSet, h₀, ih h.2]

theorem keys_entriesSet {V : Type} (es : List (String × V)) (k : String) (v : V) :
    (entriesSet es k v).map Prod.fst =
      if k ∈ es.map Prod.fst then es.map Prod.fst else es.map Prod.fst ++ [k] := by
  induction es with
  | nil => simp [entriesSet]
  | cons e es ih =>
    obtain ⟨k₀, v₀⟩ := e
    by_cases h₀ : k₀ = k
    · simp [entriesSet, h₀]
    · have h₁ : ¬ k = k₀ := fun h' => h₀ h'.symm
      simp only [entriesSet, h₀, if_false, List.map_cons, ih, List.mem_cons, h₁, false_or]
      split <;> simp

theorem mem_keys_entriesSet {V : Type} (es : List (String × V)) (k k' : String) (v : V) :
    k' ∈ (entriesSet es k v).map Prod.fst ↔ k' = k ∨ k' ∈ es.map Prod.fst := by
  rw [keys_entriesSet]
  split
  · constructor
    · intro h
      exact Or.inr h
    · rintro (h | h)
      · subst h
        assumption
      · exact h
  · simp [or_comm]

theorem nodup_keys_entriesSet {V : Type} (es : List (String × V)) (k : String) (v : V)
    (h : (es.map Prod.fst).Nodup) : ((entriesSet es k v).map Prod.fst).Nodup := by
  rw [keys_entriesSet]
  split
  · exact h
  · rename_i hk
    rw [List.nodup_append]
    refine ⟨h, List.nodup_singleton k, ?_⟩
    intro a ha hb
    simp only [List.mem_singleton] at hb
    subst hb
    exact hk ha

theorem serviceBody_eq (Address : Service → String) (st : LoopState) (peer : Peer) :
    serviceBody Address st peer =
      ⟨st.containers.set (Address peer.service) (peerEntry peer),
        st.trace ++ peerEvents Address peer⟩ := by
  obtain ⟨service, get⟩ := peer
  cases get with
  | failed err => simp [serviceBody, peerEntry, peerEvents]
  | responded body =>
    obtain ⟨e, c, h, p, err⟩ := body
    cases err <;> simp [serviceBody, peerEntry, peerEvents, Decode]

theorem foldl_serviceBody_trace (Address : Service → String) (services : List Peer)
    (st : LoopState) :
    (services.foldl (serviceBody Address) st).trace =
      st.trace ++ (services.map (peerEvents Address)).flatten := by
  induction services generalizing st with
  | nil => simp
  | cons p ps ih => simp [ih, serviceBody_eq]

theorem foldl_serviceBody_keys (Address : Service → String) (services : List Peer)
    (st : LoopState) (k : String) :
    k ∈ (services.foldl (serviceBody Address) st).containers.keys ↔
      k ∈ st.containers.keys ∨ ∃ p ∈ services, Address p.service = k := by
  induction services generalizing st with
  | nil => simp
  | cons p ps ih =>
    rw [List.foldl_cons, ih]
    simp only [serviceBody_eq, GoMap.keys, GoMap.set,
      mem_keys_entriesSet, List.mem_cons, exists_eq_or_imp]
    constructor
    · rintro ((h | h) | h)
      · exact Or.inr (Or.inl h.symm)
      · exact Or.inl h
      · exact Or.inr (Or.inr h)
    · rintro (h | h | h)
      · exact Or.inl (Or.inr h)
      · exact Or.inl (Or.inl h.symm)
      · exact Or.inr h

theorem foldl_serviceBody_nodup (Address : Service → String) (services : List Peer)
    (st : LoopState) (h : st.containers.keys.Nodup) :
    (services.foldl (serviceBody Address) st).containers.keys.Nodup := by
  induction services generalizing st with
  | nil => simpa using h
  | cons p ps ih =>
    simp only [List.foldl_cons]
    apply ih
    simp only [serviceBody_eq, GoMap.keys, GoMap.set]
    exact nodup_keys_entriesSet _ _ _ h

theorem foldl_serviceBody_get_of_not_mem (Address : Service → String) (services : List Peer)
    (st : LoopState) (k : String) (h : ∀ q ∈ services, Address q.service ≠ k) :
    (services.foldl (serviceBody Address) st).containers.get k = st.containers.get k := by
  induction services generalizing st with
  | nil => simp
  | cons p ps ih =>
    simp only [List.foldl_cons]
    rw [ih _ (fun q hq => h q (List.mem_cons_of_mem _ hq))]
    simp only [serviceBody_eq, GoMap.get, GoMap.set]
    exact entriesGet_set_ne _ _ _ _ (Ne.symm (h p (List.mem_cons_self _ _)))

theorem foldl_serviceBody_get_last (Address : Service → String) (l₁ l₂ : List Peer) (p : Peer)
    (st : LoopState) (h : ∀ q ∈ l₂, Address q.service ≠ Address p.service) :
    ((l₁ ++ p :: l₂).foldl (serviceBody Address) st).containers.get (Address p.service) =
      some (peerEntry p) := by
  rw [List.foldl_append, List.foldl_cons, foldl_serviceBody_get_of_not_mem _ _ _ _ h]
  simp only [serviceBody_eq, GoMap.get, GoMap.set]
  exact entriesGet_set_self _ _ _

theorem foldl_serviceBody_entries (Address : Service → String) (services : List Peer)
    (st : LoopState) (hd : (services.map fun p => Address p.service).Nodup)
    (hs : ∀ p ∈ services, Address p.service ∉ st.containers.keys) :
    (services.foldl (serviceBody Address) st).containers.entries =
      st.containers.entries ++ services.map fun p => (Address p.service, peerEntry p) := by
  induction services generalizing st with
  | nil => simp
  | cons p ps ih =>
    simp only [List.map_cons, List.nodup_cons, List.mem_map, not_exists, not_and] at hd
    have hp : Address p.service ∉ st.containers.keys := hs p (List.mem_cons_self _ _)
    have hstep : (serviceBody Address st p).containers.entries =
        st.containers.entries ++ [(Address p.service, peerEntry p)] := by
      simp only [serviceBody_eq, GoMap.set]
      exact entriesSet_of_not_mem _ _ _ hp
    simp only [List.foldl_cons, List.map_cons]
    rw [ih _ hd.2, hstep]
    · simp
    · intro q hq
      simp only [GoMap.keys, hstep, List.map_append, List.mem_append, List.map_cons,
        List.map_nil, List.mem_singleton, not_or]
      exact ⟨hs q (List.mem_cons_of_mem _ hq), fun h => hd.1 q hq h⟩

theorem handleClusterStatusRequest_ok (Address : Service → String) (services : List Peer) :
    handleClusterStatusRequest Address (.ok services) Exchange.fresh =
      ⟨[("Content-Type", "application/json")], some 200,
        [Document.cluster ⟨(services.foldl (serviceBody Address) ⟨⟨[]⟩, []⟩).containers⟩],
        (services.map (peerEvents Address)).flatten ++ [Event.encoded]⟩ := by
  simp [handleClusterStatusRequest, Exchange.fresh, Exchange.AddHeader, Exchange.Encode,
    Exchange.WriteHeader, foldl_serviceBody_trace]

/-- The loop `for _, c := range containers` leaves the slice as it was. -/
theorem foldl_rangeBody_containers (containers : List APIContainers) (st : RangeState) :
    (containers.foldl rangeBody st).containers = st.containers := by
  induction containers generalizing st with
  | nil => rfl
  | cons c cs ih => simp [ih, rangeBody]

/-- On success `handleLocalStatusRequest` encodes the containers as the docker
listing returned them, the `Ports` of every entry included. -/
theorem handleLocalStatusRequest_ok (containers : List APIContainers) :
    handleLocalStatusRequest (.ok containers) Exchange.fresh =
      ⟨[("Content-Type", "application/json")], some 200,
        [Document.container ⟨"", containers, "", 0⟩], [Event.encoded]⟩ := by
  simp [handleLocalStatusRequest, foldl_rangeBody_containers, Exchange.fresh,
    Exchange.AddHeader, Exchange.Encode, Exchange.WriteHeader]

/-- C1, at the failing input: for a docker listing of one container with one
exposed port (80 published as 8080), `handleLocalStatusRequest` encodes that
container with its `Ports` still holding the port, not with `Ports` empty. -/
theorem handleLocalStatusRequest_relays_ports :
    handleLocalStatusRequest (.ok [⟨"c1", "nginx", ["/web"], [⟨80, 8080⟩]⟩]) Exchange.fresh =
      ⟨[("Content-Type", "application/json")], some 200,
        [Document.container ⟨"", [⟨"c1", "nginx", ["/web"], [⟨80, 8080⟩]⟩], "", 0⟩],
        [Event.encoded]⟩ ∧
    handleLocalStatusRequest (.ok [⟨"c1", "nginx", ["/web"], [⟨80, 8080⟩]⟩]) Exchange.fresh ≠
      ⟨[("Content-Type", "application/json")], some 200,
        [Document.container ⟨"", [⟨"c1", "nginx", ["/web"], []⟩], "", 0⟩],
        [Event.encoded]⟩ := by
  decide

/-- C2, as stated, fails: the first two of three listed peers share the address
`a:1`; the GET to the first fails with `timeout`, the second answers with an
empty container list, and the body of the third (`b:2`) supplies the host
`zzz` and then fails to decode. The entry under `a:1` does not carry the error
`timeout`, and the entry under `b:2` carries the host `zzz`, not the host `b`
of the peer. -/
theorem cluster_entry_counterexample :
    hostsOf (handleClusterStatusRequest hostPort (.ok [
        ⟨⟨"a", 1⟩, .failed "timeout"⟩,
        ⟨⟨"a", 1⟩, .responded ⟨none, some [], none, none, none⟩⟩,
        ⟨⟨"b", 2⟩, .responded ⟨none, none, some "zzz", none, some "json: cannot unmarshal"⟩⟩])
      Exchange.fresh) =
      some ⟨[("a:1", ⟨"", [], "a", 1⟩), ("b:2", ⟨"json: cannot unmarshal", [], "zzz", 2⟩)]⟩ ∧
    hostPort ⟨"a", 1⟩ = "a:1" ∧ hostPort ⟨"b", 2⟩ = "b:2" := by
  decide

/-- C2, amended: for every list of peers the handler answers 200 with one hosts
mapping; a GET is issued for every peer; the keys of the mapping are exactly
the addresses of the peers, each once, so that pairwise distinct addresses give
one entry per peer; and for a peer whose address is not listed again after it,
the entry under its address is `error, Host, Port` of that peer when its GET
failed, the decode error with the containers, host and port the body supplied
(the Host and Port of the peer where it supplied none) when the decode failed,
and otherwise the decoded body over the Host and Port of the peer. -/
theorem cluster_hosts_entries (Address : Service → String) (services : List Peer) :
    ∃ hosts : GoMap ContainerResponse,
      (handleClusterStatusRequest Address (.ok services) Exchange.fresh).status = some 200 ∧
      (handleClusterStatusRequest Address (.ok services) Exchange.fresh).body =
        [Document.cluster ⟨hosts⟩] ∧
      (∀ p ∈ services, Event.getIssued (localStatusURL (Address p.service)) ∈
        (handleClusterStatusRequest Address (.ok services) Exchange.fresh).trace) ∧
      (∀ k, k ∈ hosts.keys ↔ ∃ p ∈ services, Address p.service = k) ∧
      hosts.keys.Nodup ∧
      ((services.map fun p => Address p.service).Nodup → hosts.len = services.length) ∧
      ∀ l₁ p l₂, services = l₁ ++ p :: l₂ →
        (∀ q ∈ l₂, Address q.service ≠ Address p.service) →
        (∀ err, p.get = .failed err →
          hosts.get (Address p.service) = some ⟨err, [], p.service.Host, p.service.Port⟩) ∧
        (∀ body err, p.get = .responded body → body.err = some err →
          hosts.get (Address p.service) =
            some ⟨err, body.Containers.getD [], body.Host.getD p.service.Host,
              body.Port.getD p.service.Port⟩) ∧
        (∀ body, p.get = .responded body → body.err = none →
          hosts.get (Address p.service) =
            some ⟨body.Error.getD "", body.Containers.getD [], body.Host.getD p.service.Host,
              body.Port.getD p.service.Port⟩) := by
  refine ⟨(services.foldl (serviceBody Address) ⟨⟨[]⟩, []⟩).containers, ?_, ?_, ?_, ?_, ?_, ?_, ?_⟩
  · rw [handleClusterStatusRequest_ok]
  · rw [handleClusterStatusRequest_ok]
  · intro p hp
    rw [handleClusterStatusRequest_ok]
    simp only [List.mem_append, List.mem_flatten, List.mem_map]
    exact Or.inl ⟨peerEvents Address p, ⟨p, hp, rfl⟩, by simp [peerEvents]⟩
  · intro k
    rw [foldl_serviceBody_keys]
    simp [GoMap.keys]
  · exact foldl_serviceBody_nodup Address services _ (by simp [GoMap.keys])
  · intro hd
    have he := foldl_serviceBody_entries Address services ⟨⟨[]⟩, []⟩ hd (by simp [GoMap.keys])
    simp [GoMap.len, he]
  · intro l₁ p l₂ hs hlast
    subst hs
    have hget := foldl_serviceBody_get_last Address l₁ l₂ p ⟨⟨[]⟩, []⟩ hlast
    refine ⟨?_, ?_, ?_⟩
    · intro err he
      rw [hget]
      simp [peerEntry, he]
    · intro body err hb he
      rw [hget]
      simp [peerEntry, hb, he]
    · intro body hb he
      rw [hget]
      simp [peerEntry, hb, he]

/-- C2, amended, at three peers with distinct addresses of which the second
times out: the mapping has three entries, and the entry of the second peer is
its error with its host and port. -/
theorem cluster_hosts_entries_witness :
    ∃ hosts : GoMap ContainerResponse,
      (handleClusterStatusRequest hostPort (.ok [
          ⟨⟨"a", 1⟩, .responded ⟨none, some [], none, none, none⟩⟩,
          ⟨⟨"b", 2⟩, .failed "timeout"⟩,
          ⟨⟨"c", 3⟩, .responded ⟨none, some [], none, none, none⟩⟩]) Exchange.fresh).body =
        [Document.cluster ⟨hosts⟩] ∧
      hosts.len = 3 ∧ hosts.get "b:2" = some ⟨"timeout", [], "b", 2⟩ := by
  obtain ⟨hosts, -, hbody, -, -, -, hlen, hentry⟩ := cluster_hosts_entries hostPort [
      ⟨⟨"a", 1⟩, .responded ⟨none, some [], none, none, none⟩⟩,
      ⟨⟨"b", 2⟩, .failed "timeout"⟩,
      ⟨⟨"c", 3⟩, .responded ⟨none, some [], none, none, none⟩⟩]
  refine ⟨hosts, hbody, hlen (by decide), ?_⟩
  exact (hentry [⟨⟨"a", 1⟩, .responded ⟨none, some [], none, none, none⟩⟩]
    ⟨⟨"b", 2⟩, .failed "timeout"⟩
    [⟨⟨"c", 3⟩, .responded ⟨none, some [], none, none, none⟩⟩] rfl (by decide)).1 "timeout" rfl

/-- C3: when `ListServices` returns an error, the handler writes status 500 and
one document, the error with the message of that error; it issues no GET and
writes no hosts mapping. -/
theorem cluster_listServices_error (Address : Service → String) (err : String) :
    handleClusterStatusRequest Address (.error err) Exchange.fresh =
      ⟨[("Content-Type", "application/json")], some 500, [Document.error err],
        [Event.encoded]⟩ ∧
    hostsOf (handleClusterStatusRequest Address (.error err) Exchange.fresh) = none ∧
    ∀ url, Event.getIssued url ∉
      (handleClusterStatusRequest Address (.error err) Exchange.fresh).trace := by
  have h : handleClusterStatusRequest Address (.error err) Exchange.fresh =
      ⟨[("Content-Type", "application/json")], some 500, [Document.error err],
        [Event.encoded]⟩ := by
    simp [handleClusterStatusRequest, writeError, Exchange.fresh, Exchange.AddHeader,
      Exchange.Encode, Exchange.WriteHeader]
  rw [h]
  refine ⟨rfl, rfl, ?_⟩
  intro url
  simp

/-- C9: for peers with pairwise distinct addresses, the hosts mapping encoded
for a list of peers and the one encoded for any permutation of that list hold
the same value under every key, and the same entries. -/
theorem cluster_hosts_perm (Address : Service → String) (l₁ l₂ : List Peer)
    (hd : (l₁.map fun p => Address p.service).Nodup) (hp : l₁.Perm l₂) :
    ∃ h₁ h₂ : GoMap ContainerResponse,
      hostsOf (handleClusterStatusRequest Address (.ok l₁) Exchange.fresh) = some h₁ ∧
      hostsOf (handleClusterStatusRequest Address (.ok l₂) Exchange.fresh) = some h₂ ∧
      (∀ k, h₁.get k = h₂.get k) ∧ h₁.entries.Perm h₂.entries ∧
      h₁.keys.Nodup ∧ h₂.keys.Nodup := by
  have hd₂ : (l₂.map fun p => Address p.service).Nodup :=
    (hp.map fun p => Address p.service).nodup_iff.mp hd
  have e₁ := foldl_serviceBody_entries Address l₁ ⟨⟨[]⟩, []⟩ hd (by simp [GoMap.keys])
  have e₂ := foldl_serviceBody_entries Address l₂ ⟨⟨[]⟩, []⟩ hd₂ (by simp [GoMap.keys])
  refine ⟨_, _, by rw [handleClusterStatusRequest_ok]; rfl,
    by rw [handleClusterStatusRequest_ok]; rfl, ?_, ?_,
    foldl_serviceBody_nodup Address l₁ _ (by simp [GoMap.keys]),
    foldl_serviceBody_nodup Address l₂ _ (by simp [GoMap.keys])⟩
  · intro k
    by_cases hk : ∃ p ∈ l₁, Address p.service = k
    · obtain ⟨p, hp₁, rfl⟩ := hk
      have hp₂ : p ∈ l₂ := hp.subset hp₁
      obtain ⟨a₁, b₁, rfl⟩ := List.append_of_mem hp₁
      obtain ⟨a₂, b₂, rfl⟩ := List.append_of_mem hp₂
      rw [foldl_serviceBody_get_last, foldl_serviceBody_get_last]
      · intro q hq heq
        simp only [List.map_append, List.map_cons, List.nodup_append, List.nodup_cons,
          List.mem_map, not_exists, not_and] at hd₂
        exact hd₂.2.1.1 q hq heq
      · intro q hq heq
        simp only [List.map_append, List.map_cons, List.nodup_append, List.nodup_cons,
          List.mem_map, not_exists, not_and] at hd
        exact hd.2.1.1 q hq heq
    · have hk₂ : ¬ ∃ p ∈ l₂, Address p.service = k := by
        rintro ⟨p, hp₂, h⟩
        exact hk ⟨p, hp.symm.subset hp₂, h⟩
      rw [foldl_serviceBody_get_of_not_mem Address l₁ _ k (fun q hq h => hk ⟨q, hq, h⟩),
        foldl_serviceBody_get_of_not_mem Address l₂ _ k (fun q hq h => hk₂ ⟨q, hq, h⟩)]
  · rw [e₁, e₂]
    simpa using hp.map fun p => (Address p.service, peerEntry p)

/-- C9 at two peers, one failing, listed in both orders. -/
theorem cluster_hosts_perm_witness :
    ∃ h₁ h₂ : GoMap ContainerResponse,
      hostsOf (handleClusterStatusRequest hostPort (.ok [
        ⟨⟨"a", 1⟩, .failed "timeout"⟩,
        ⟨⟨"b", 2⟩, .responded ⟨none, some [], none, none, none⟩⟩]) Exchange.fresh) = some h₁ ∧
      hostsOf (handleClusterStatusRequest hostPort (.ok [
        ⟨⟨"b", 2⟩, .responded ⟨none, some [], none, none, none⟩⟩,
        ⟨⟨"a", 1⟩, .failed "timeout"⟩]) Exchange.fresh) = some h₂ ∧
      (∀ k, h₁.get k = h₂.get k) ∧ h₁.entries.Perm h₂.entries ∧
      h₁.keys.Nodup ∧ h₂.keys.Nodup :=
  cluster_hosts_perm hostPort
    [⟨⟨"a", 1⟩, .failed "timeout"⟩, ⟨⟨"b", 2⟩, .responded ⟨none, some [], none, none, none⟩⟩]
    [⟨⟨"b", 2⟩, .responded ⟨none, some [], none, none, none⟩⟩, ⟨⟨"a", 1⟩, .failed "timeout"⟩]
    (by decide) (List.Perm.swap _ _ _)

/-- C10, as stated, fails: with two peers the GET to the second peer is issued
after the GET to the first peer has returned. -/
theorem cluster_calls_counterexample :
    (handleClusterStatusRequest hostPort (.ok [
        ⟨⟨"a", 1⟩, .responded ⟨none, some [], none, none, none⟩⟩,
        ⟨⟨"b", 2⟩, .responded ⟨none, some [], none, none, none⟩⟩]) Exchange.fresh).trace =
      [Event.getIssued "http://a:1/status/local", Event.getReturned "http://a:1/status/local",
       Event.getIssued "http://b:2/status/local", Event.getReturned "http://b:2/status/local",
       Event.encoded] ∧
    List.indexOf (Event.getReturned "http://a:1/status/local")
        (handleClusterStatusRequest hostPort (.ok [
          ⟨⟨"a", 1⟩, .responded ⟨none, some [], none, none, none⟩⟩,
          ⟨⟨"b", 2⟩, .responded ⟨none, some [], none, none, none⟩⟩]) Exchange.fresh).trace <
      List.indexOf (Event.getIssued "http://b:2/status/local")
        (handleClusterStatusRequest hostPort (.ok [
          ⟨⟨"a", 1⟩, .responded ⟨none, some [], none, none, none⟩⟩,
          ⟨⟨"b", 2⟩, .responded ⟨none, some [], none, none, none⟩⟩]) Exchange.fresh).trace := by
  decide

/-- C10, amended: within one cluster-status request the calls to the peers run
one after the other in the order of the list, each GET issued after the GET
before it has returned, and the response is encoded after the last GET has
returned. -/
theorem cluster_calls_sequential (Address : Service → String) (services : List Peer) :
    (handleClusterStatusRequest Address (.ok services) Exchange.fresh).trace =
      (services.map fun p =>
        [Event.getIssued (localStatusURL (Address p.service)),
         Event.getReturned (localStatusURL (Address p.service))]).flatten ++
      [Event.encoded] := by
  rw [handleClusterStatusRequest_ok]
  rfl

end statusserver

end DockerStatus
